import Mathlib

/-!
# Verification of the Contentful integration layer of `propmatics`

A shallow embedding of `core/contentful_service.py`: the geocoder, the
rich-text codec, the asset-URL resolver, the entry parsers, the read-path
fetch operations and the outbound sync field assembly, together with
theorems settling the specification's claims about them.

Python runtime values flowing through the integration layer are modelled by
the inductive type `Val`.  Dictionaries are association lists in insertion
order (Python dicts preserve insertion order and the code never deletes
keys).  Remote-entry objects, which expose *attributes* rather than keys,
are modelled by `RawEntry` at top level and by the `Val.entryRef` and
`Val.asset` constructors when nested.  Exceptions are modelled with
`Except Unit`; every `try/except` of the source becomes an explicit `match`
on the embedded body's outcome.  Numbers are embedded as `ℚ` (the source
only stores and compares its coordinate literals, it never computes with
them, so any exact representation is faithful).
-/

/-- A Python runtime value as it appears in this integration layer:
`None`, strings, numbers, booleans, lists, dicts, plus the three duck-typed
remote-object shapes the source probes with `hasattr`: an asset exposing a
`url()` method, an asset exposing a `fields()` dict, and a nested remote
entry exposing a `sys` dict and named attributes. -/
inductive Val where
  | null
  | str (s : String)
  | num (q : ℚ)
  | bool (b : Bool)
  | list (xs : List Val)
  | obj (kvs : List (String × Val))
  | asset (url : String)
  | assetFields (kvs : List (String × Val))
  | entryRef (sysd : List (String × String)) (eattrs : List (String × Val))

/-- Python truthiness (`if v:`) for the modelled values: `None`, `""`, `0`,
`False`, empty lists and empty dicts are falsy; remote objects are truthy. -/
def pyTruthy : Val → Bool
  | .null => false
  | .str s => s != ""
  | .num q => decide (q ≠ 0)
  | .bool b => b
  | .list xs => !xs.isEmpty
  | .obj kvs => !kvs.isEmpty
  | .asset _ => true
  | .assetFields _ => true
  | .entryRef _ _ => true

/-- `d.get(k)` on a Python dict modelled as an association list:
the first binding of `k`, if any. -/
def dictGet (kvs : List (String × Val)) (k : String) : Option Val :=
  match kvs.find? (fun p => p.1 == k) with
  | some p => some p.2
  | none => none

/-- `d.get(k, dflt)` on a dict of strings (used for the `sys` metadata). -/
def sysDictGet (d : List (String × String)) (k : String) (dflt : String) : String :=
  match d.find? (fun p => p.1 == k) with
  | some p => p.2
  | none => dflt

/-- `getattr`-style lookup on the attribute list of a nested remote object. -/
def attrLookup (eattrs : List (String × Val)) (name : String) : Option Val :=
  match eattrs.find? (fun p => p.1 == name) with
  | some p => some p.2
  | none => none

/-- The whitespace characters Python's `str.strip` removes for the inputs this
layer sees (ASCII whitespace). -/
def isPyWS (c : Char) : Bool :=
  c == ' ' || c == '\t' || c == '\n' || c == '\r' || c == '\x0b' || c == '\x0c'

/-- `str.strip()` on the character list: drop whitespace from both ends. -/
def stripChars (l : List Char) : List Char :=
  ((l.dropWhile isPyWS).reverse.dropWhile isPyWS).reverse

/-- `s.strip()`. -/
def pyStrip (s : String) : String := ⟨stripChars s.data⟩

/-- `s.split(chr(10))` on the character list; like Python, the empty text
yields one empty piece, and `n` separators yield `n + 1` pieces. -/
def splitNlAux : List Char → List (List Char)
  | [] => [[]]
  | c :: cs =>
    if c = '\n' then [] :: splitNlAux cs
    else
      match splitNlAux cs with
      | [] => [[c]]
      | l :: ls => (c :: l) :: ls

/-- `text.split` on the newline character, as the source's `build_rich_text`
uses it. -/
def pySplitLines (s : String) : List String := (splitNlAux s.data).map fun l => ⟨l⟩

/-- The newline join `parse_rich_text` performs on its collected text parts. -/
def pyJoinLines : List String → String
  | [] => ""
  | [x] => x
  | x :: xs => x ++ "\n" ++ pyJoinLines xs

/-- `str.lower()` (the city names are ASCII, so per-character lowering is
faithful). -/
def lowerStr (s : String) : String := ⟨s.data.map Char.toLower⟩

/-- Whether `p` is an initial segment of `l`. -/
def isPreList (p l : List Char) : Bool :=
  match p, l with
  | [], _ => true
  | _ :: _, [] => false
  | a :: ps, b :: ls => a == b && isPreList ps ls

/-- Whether `pat` occurs contiguously inside `l`. -/
def hasSubList (pat l : List Char) : Bool :=
  match l with
  | [] => isPreList pat []
  | _ :: ls => isPreList pat l || hasSubList pat ls

/-- Python's `pat in hay` on strings. -/
def strContains (hay pat : String) : Bool := hasSubList pat.data hay.data

/-- The latitude/longitude pair the geocoder and the parsers traffic in. -/
structure Coords where
  lat : ℚ
  lon : ℚ
  deriving DecidableEq

/-- The fixed city table `CITY_COORDS`, in source (= Python dict iteration)
order. -/
def CITY_COORDS : List (String × Coords) :=
  [("hyderabad", ⟨17.385, 78.4867⟩),
   ("mumbai", ⟨19.076, 72.8777⟩),
   ("bangalore", ⟨12.9716, 77.5946⟩),
   ("delhi", ⟨28.6139, 77.209⟩),
   ("chennai", ⟨13.0827, 80.2707⟩),
   ("pune", ⟨18.5204, 73.8567⟩),
   ("kolkata", ⟨22.5726, 88.3639⟩)]

/-- `geocode_location` of the source: `None` and the empty string are falsy
and yield the default; otherwise the first city of the table that occurs in
the lower-cased input wins; no match yields the default. -/
def geocode_location : Option String → Coords
  | none => ⟨17.385, 78.4867⟩
  | some s =>
    if s = "" then ⟨17.385, 78.4867⟩
    else
      match CITY_COORDS.find? (fun p => strContains (lowerStr s) p.1) with
      | some p => p.2
      | none => ⟨17.385, 78.4867⟩

/-- The text node `build_rich_text` emits for one non-blank line, with the
source's key order. -/
def textNode (v : String) : Val :=
  .obj [("nodeType", .str "text"), ("value", .str v), ("marks", .list []),
        ("data", .obj [])]

/-- The paragraph node `build_rich_text` emits, with the source's key order
(the fallback paragraph of the function's last branch has the same shape). -/
def paragraphNode (v : String) : Val :=
  .obj [("nodeType", .str "paragraph"), ("data", .obj []),
        ("content", .list [textNode v])]

/-- The document wrapper `build_rich_text` returns. -/
def documentNode (content : List Val) : Val :=
  .obj [("nodeType", .str "document"), ("data", .obj []),
        ("content", .list content)]

/-- `build_rich_text` of the source.  A falsy input (`None` or `""`) is first
replaced by the fixed text `"No description provided."`; the text is split on
newlines; every line with non-blank strip becomes one paragraph holding its
stripped content; if no paragraph survives, the single fallback paragraph with
text `"No description"` is used. -/
def build_rich_text (text : Option String) : Val :=
  let t : String :=
    match text with
    | none => "No description provided."
    | some s => if s = "" then "No description provided." else s
  let paragraphs := pySplitLines t
  let content := paragraphs.filterMap fun para =>
    if pyStrip para = "" then none else some (paragraphNode (pyStrip para))
  if content.isEmpty then
    documentNode [paragraphNode "No description"]
  else
    documentNode content

/-- `node.get (a string) == (a string)` as the source compares node types:
true exactly when the key is present with that string value. -/
def nodeTypeIs (kvs : List (String × Val)) (t : String) : Bool :=
  match dictGet kvs "nodeType" with
  | some (.str s) => s == t
  | _ => false

/-- The inner loop of `parse_rich_text` over the children of a paragraph
dict: a dict child of node type `text` contributes `child.get ("value", "")`;
a dict child of another type is skipped; any non-dict child makes
`child.get` raise (`AttributeError`), modelled as `.error`. -/
def childTexts : List Val → Except Unit (List Val)
  | [] => .ok []
  | child :: rest =>
    match child with
    | .obj ckvs =>
      if nodeTypeIs ckvs "text" then
        match childTexts rest with
        | .ok tl => .ok (((dictGet ckvs "value").getD (.str "")) :: tl)
        | .error e => .error e
      else childTexts rest
    | _ => .error ()

/-- The attribute branch of the child loop: `hasattr(child, value)` holds
only for nested entry objects. -/
def valueAttr : Val → Option Val
  | .entryRef _ ea => attrLookup ea "value"
  | _ => none

/-- One node of the document content as `parse_rich_text` walks it.  A dict
node of type `paragraph` iterates its `content` (a string iterates to
characters, whose `.get` raises unless the string is empty; a dict iterates
to its string keys, likewise; anything else is not iterable); a dict of
another type is skipped; a nested entry object with a `content` attribute
takes the `hasattr` branch collecting `child.value` of children that have
it; every other value is skipped. -/
def nodeTexts : Val → Except Unit (List Val)
  | .obj kvs =>
    if nodeTypeIs kvs "paragraph" then
      match (dictGet kvs "content").getD (.list []) with
      | .list children => childTexts children
      | .str s => if s = "" then .ok [] else .error ()
      | .obj ckvs => if ckvs.isEmpty then .ok [] else .error ()
      | _ => .error ()
    else .ok []
  | .entryRef _ eattrs =>
    match attrLookup eattrs "content" with
    | some (.list children) => .ok (children.filterMap valueAttr)
    | some (.str _) => .ok []
    | some (.obj _) => .ok []
    | some _ => .error ()
    | none => .ok []
  | _ => .ok []

/-- The whole loop of `parse_rich_text` over the document content: iterating
a non-iterable content raises; a string content iterates to characters and a
dict to its keys, both of which every branch skips. -/
def nodesTexts : List Val → Except Unit (List Val)
  | [] => .ok []
  | n :: rest =>
    match nodeTexts n with
    | .ok a =>
      match nodesTexts rest with
      | .ok b => .ok (a ++ b)
      | .error e => .error e
    | .error e => .error e

/-- The content `parse_rich_text` walks: the `content` attribute when the
value is a remote object having one, else the `content` key when the value
is a dict containing it; `none` sends the source to its
`return str(rich_text)` branch. -/
def docContent : Val → Option Val
  | .entryRef _ eattrs => attrLookup eattrs "content"
  | .obj kvs => dictGet kvs "content"
  | _ => none

/-- The `chr(10).join(text_parts)` step: it raises `TypeError` unless every
collected part is a string. -/
def allStrings : List Val → Option (List String)
  | [] => some []
  | .str s :: rest =>
    match allStrings rest with
    | some tl => some (s :: tl)
    | none => none
  | _ :: _ => none

/-- Python's `str(v)` for the values that can reach the fallback branches of
`parse_rich_text`.  No verified claim depends on this rendering's exact
text (the claims' inputs never reach these branches); it is present so the
embedding stays total exactly where the source is. -/
def pyStr : Val → String
  | .null => "None"
  | .str s => s
  | .num q => toString q.num ++ (if q.den = 1 then "" else "/" ++ toString q.den)
  | .bool b => if b then "True" else "False"
  | .list _ => "[...]"
  | .obj _ => "{...}"
  | .asset u => "Asset(" ++ u ++ ")"
  | .assetFields _ => "Asset(fields)"
  | .entryRef _ _ => "Entry"

/-- `parse_rich_text` of the source.  A falsy value yields `""`; a string is
passed through; otherwise the document content is walked collecting the
values of text children of paragraph nodes, joined with newlines; a value
with no recognizable content, and any exception during the walk or the
join, yields `str(rich_text)` (the value is known truthy there). -/
def parse_rich_text (rich_text : Val) : String :=
  if pyTruthy rich_text then
    match rich_text with
    | .str s => s
    | v =>
      match docContent v with
      | none => pyStr v
      | some content =>
        match content with
        | .list nodes =>
          match nodesTexts nodes with
          | .error _ => pyStr v
          | .ok parts =>
            match allStrings parts with
            | some strs => pyJoinLines strs
            | none => pyStr v
        | .str _ => ""
        | .obj _ => ""
        | _ => pyStr v
  else ""

/-- `url.startswith` for the protocol-relative prefix check of
`get_asset_url`. -/
def startsWithSlashSlash (u : String) : Bool := isPreList ['/', '/'] u.data

/-- The `https:` prefixing both branches of `get_asset_url` apply. -/
def httpsResolve (u : String) : String :=
  if startsWithSlashSlash u then "https:" ++ u else u

/-- `get_asset_url` of the source.  A falsy asset yields `None`; an asset
object with a `url()` method yields that URL with `https:` prefixed when it
is protocol-relative; an asset with a `fields()` dict containing `file`
resolves `file.get ("url", "")` the same way when `file` is a dict holding a
string (a non-dict `file` makes `.get` raise and a non-string URL makes
`startswith` raise, both swallowed into `None`); everything else yields
`None`. -/
def get_asset_url (asset : Val) : Option String :=
  if pyTruthy asset then
    match asset with
    | .asset url => some (httpsResolve url)
    | .assetFields kvs =>
      match dictGet kvs "file" with
      | some (.obj f) =>
        match (dictGet f "url").getD (.str "") with
        | .str url => some (httpsResolve url)
        | _ => none
      | some _ => none
      | none => none
    | _ => none
  else none

/-- A raw remote entry as the fetch operations hand it to the parsers: the
`sys` metadata dict and the named entry attributes.  `sysd = none` models an
entry of unexpected shape whose `sys` access raises — the malformed-entry
scenario of the source's `except` branches. -/
structure RawEntry where
  sysd : Option (List (String × String))
  attrs : List (String × Val)

/-- `getattr(entry, name, dflt)`. -/
def RawEntry.getattr (e : RawEntry) (name : String) (dflt : Val) : Val :=
  match attrLookup e.attrs name with
  | some v => v
  | none => dflt

/-- `hasattr(entry, name)`. -/
def RawEntry.hasattr (e : RawEntry) (name : String) : Bool :=
  (attrLookup e.attrs name).isSome

/-- `entry.sys.get(k, dflt)`; raises when the entry's `sys` is malformed. -/
def RawEntry.sysGet (e : RawEntry) (k : String) (dflt : String) :
    Except Unit String :=
  match e.sysd with
  | none => .error ()
  | some d => .ok (sysDictGet d k dflt)

/-- An `Option String` result stored into a dict value (`None` ↦ `null`). -/
def optStrVal : Option String → Val
  | none => .null
  | some s => .str s

/-- The location handling of `parse_property_entry`: defaults
`(17.385, 78.4867)`; a truthy location with a `lat` attribute also reads
`lon` (raising when `lon` is missing); else a dict location reads
`lat`/`lon` keys with the defaults. -/
def latlonOf (location : Val) : Except Unit (Val × Val) :=
  if pyTruthy location then
    match location with
    | .entryRef _ ea =>
      match attrLookup ea "lat" with
      | some lv =>
        match attrLookup ea "lon" with
        | some lo => .ok (lv, lo)
        | none => .error ()
      | none => .ok (.num 17.385, .num 78.4867)
    | .obj kvs =>
      .ok ((dictGet kvs "lat").getD (.num 17.385),
           (dictGet kvs "lon").getD (.num 78.4867))
    | _ => .ok (.num 17.385, .num 78.4867)
  else .ok (.num 17.385, .num 78.4867)

/-- The developer handling of `parse_property_entry`: a truthy `developer`
attribute becomes a dict with `id` from `dev.sys` (empty when the object has
no `sys`) and `name` from the `name` attribute (default `"Unknown"`). -/
def developerOf (e : RawEntry) : Val :=
  if e.hasattr "developer" && pyTruthy (e.getattr "developer" .null) then
    match e.getattr "developer" .null with
    | .entryRef dsys dattrs =>
      .obj [("id", .str (sysDictGet dsys "id" "")),
            ("name", (attrLookup dattrs "name").getD (.str "Unknown"))]
    | _ => .obj [("id", .str ""), ("name", .str "Unknown")]
  else .null

/-- The image handling shared by the property and blog parsers. -/
def imageUrlOf (e : RawEntry) (attr : String) : Option String :=
  if e.hasattr attr && pyTruthy (e.getattr attr .null) then
    get_asset_url (e.getattr attr .null)
  else none

/-- The `try` body of `parse_property_entry`: the canonical dict in the
source's key order.  The possible raises are a location with `lat` but no
`lon` and a malformed `sys`. -/
def parsePropertyBody (e : RawEntry) : Except Unit (List (String × Val)) :=
  match latlonOf (e.getattr "location" .null) with
  | .error u => .error u
  | .ok (lat, lon) =>
    match e.sysGet "id" "" with
    | .error u => .error u
    | .ok idv =>
      match e.sysGet "createdAt" "" with
      | .error u => .error u
      | .ok created =>
        .ok [("id", .str idv),
             ("title", e.getattr "title" (.str "")),
             ("slug", e.getattr "slug" (.str "")),
             ("property_type", e.getattr "propertyType" (.str "")),
             ("price", e.getattr "price" (.num 0)),
             ("city", e.getattr "city" (.str "")),
             ("location", .obj [("lat", lat), ("lon", lon)]),
             ("description",
              .str (parse_rich_text (e.getattr "description" (.str "")))),
             ("carpet_area", e.getattr "carpetArea" .null),
             ("floor_number", e.getattr "floorNumber" .null),
             ("total_floors", e.getattr "totalNoOfFloors" .null),
             ("possession_date", e.getattr "pocessionByDate" .null),
             ("loan_approved_by", e.getattr "loanApprovedBy" (.str "")),
             ("image_url", optStrVal (imageUrlOf e "image")),
             ("developer", developerOf e),
             ("created_at", .str created)]

/-- `parse_property_entry`: the body's dict, or the stub
`(title Error, slug empty)` when the body raises. -/
def parse_property_entry (e : RawEntry) : List (String × Val) :=
  match parsePropertyBody e with
  | .ok d => d
  | .error _ => [("title", .str "Error"), ("slug", .str "")]

/-- The `try` body of `parse_blog_entry`. -/
def parseBlogBody (e : RawEntry) : Except Unit (List (String × Val)) :=
  match e.sysGet "id" "" with
  | .error u => .error u
  | .ok idv =>
    match e.sysGet "createdAt" "" with
    | .error u => .error u
    | .ok created =>
      .ok [("id", .str idv),
           ("title", e.getattr "title" (.str "")),
           ("slug", e.getattr "slug" (.str "")),
           ("content", .str (parse_rich_text (e.getattr "content" (.str "")))),
           ("excerpt", e.getattr "excerpt" (.str "")),
           ("image_url", optStrVal (imageUrlOf e "image")),
           ("author", e.getattr "author" (.str "Admin")),
           ("created_at", .str created)]

/-- `parse_blog_entry`: the body's dict, or the stub
`(title Error, slug empty)` when the body raises. -/
def parse_blog_entry (e : RawEntry) : List (String × Val) :=
  match parseBlogBody e with
  | .ok d => d
  | .error _ => [("title", .str "Error"), ("slug", .str "")]

/-- The `try` body of `parse_notification_entry`. -/
def parseNotificationBody (e : RawEntry) : Except Unit (List (String × Val)) :=
  match e.sysGet "id" "" with
  | .error u => .error u
  | .ok idv =>
    .ok [("id", .str idv),
         ("title", e.getattr "title" (.str "")),
         ("subject", e.getattr "subject" (.str "")),
         ("date", e.getattr "date" (.str "")),
         ("document_url", optStrVal (imageUrlOf e "document"))]

/-- `parse_notification_entry`: the body's dict, or — unlike the other two
parsers — the one-key stub `(title Error)` when the body raises. -/
def parse_notification_entry (e : RawEntry) : List (String × Val) :=
  match parseNotificationBody e with
  | .ok d => d
  | .error _ => [("title", .str "Error")]

/-- The behaviour of the remote delivery client for one call, as the read
operations observe it: credentials unconfigured (`get_delivery_client`
returns `None`), the query raising a transport exception, or the query
returning its (possibly empty) result list. -/
inductive RemoteBehavior where
  | notConfigured
  | raisesOnQuery
  | returns (entries : List RawEntry)

/-- The `try` body of `fetch_properties`. -/
def fetchPropertiesBody : RemoteBehavior → Except Unit (List (List (String × Val)))
  | .notConfigured => .ok []
  | .raisesOnQuery => .error ()
  | .returns es => .ok (es.map parse_property_entry)

/-- `fetch_properties`: the body's result, `[]` on any exception. -/
def fetch_properties (remote : RemoteBehavior) : List (List (String × Val)) :=
  match fetchPropertiesBody remote with
  | .ok v => v
  | .error _ => []

/-- The `try` body of `fetch_property_by_slug`: an unconfigured client or an
empty query result yield `None` (`if entries:` is false on the empty list),
a nonempty result yields its first entry parsed. -/
def fetchPropertyBySlugBody (_slug : String) :
    RemoteBehavior → Except Unit (Option (List (String × Val)))
  | .notConfigured => .ok none
  | .raisesOnQuery => .error ()
  | .returns [] => .ok none
  | .returns (e :: _) => .ok (some (parse_property_entry e))

/-- `fetch_property_by_slug`: the body's result, `None` on any exception. -/
def fetch_property_by_slug (slug : String) (remote : RemoteBehavior) :
    Option (List (String × Val)) :=
  match fetchPropertyBySlugBody slug remote with
  | .ok v => v
  | .error _ => none

/-- The `try` body of `fetch_blogs`. -/
def fetchBlogsBody : RemoteBehavior → Except Unit (List (List (String × Val)))
  | .notConfigured => .ok []
  | .raisesOnQuery => .error ()
  | .returns es => .ok (es.map parse_blog_entry)

/-- `fetch_blogs`: the body's result, `[]` on any exception. -/
def fetch_blogs (remote : RemoteBehavior) : List (List (String × Val)) :=
  match fetchBlogsBody remote with
  | .ok v => v
  | .error _ => []

/-- The `try` body of `fetch_blog_by_slug`. -/
def fetchBlogBySlugBody (_slug : String) :
    RemoteBehavior → Except Unit (Option (List (String × Val)))
  | .notConfigured => .ok none
  | .raisesOnQuery => .error ()
  | .returns [] => .ok none
  | .returns (e :: _) => .ok (some (parse_blog_entry e))

/-- `fetch_blog_by_slug`: the body's result, `None` on any exception. -/
def fetch_blog_by_slug (slug : String) (remote : RemoteBehavior) :
    Option (List (String × Val)) :=
  match fetchBlogBySlugBody slug remote with
  | .ok v => v
  | .error _ => none

/-- The `try` body of `fetch_notifications` (the limit only shapes the
remote query, which `RemoteBehavior.returns` already abstracts). -/
def fetchNotificationsBody (_limit : ℤ) :
    RemoteBehavior → Except Unit (List (List (String × Val)))
  | .notConfigured => .ok []
  | .raisesOnQuery => .error ()
  | .returns es => .ok (es.map parse_notification_entry)

/-- `fetch_notifications`: the body's result, `[]` on any exception. -/
def fetch_notifications (limit : ℤ) (remote : RemoteBehavior) :
    List (List (String × Val)) :=
  match fetchNotificationsBody limit remote with
  | .ok v => v
  | .error _ => []

/-- The inline developer dict of `fetch_developers`; its `sys` access sits
inside the operation's own `try`, so a malformed entry raises here. -/
def developerEntryBody (e : RawEntry) : Except Unit (List (String × Val)) :=
  match e.sysGet "id" "" with
  | .error u => .error u
  | .ok idv =>
    .ok [("id", .str idv),
         ("name", e.getattr "name" (.str "Unknown")),
         ("logo", optStrVal (get_asset_url (e.getattr "logo" .null)))]

/-- The `try` body of `fetch_developers`. -/
def fetchDevelopersBody : RemoteBehavior → Except Unit (List (List (String × Val)))
  | .notConfigured => .ok []
  | .raisesOnQuery => .error ()
  | .returns es => es.mapM developerEntryBody

/-- `fetch_developers`: the body's result, `[]` on any exception. -/
def fetch_developers (remote : RemoteBehavior) : List (List (String × Val)) :=
  match fetchDevelopersBody remote with
  | .ok v => v
  | .error _ => []

/-- A Python `datetime.date`.  Dates are always truthy; only `None` fields
are falsy, and `str(date)` renders ISO `YYYY-MM-DD`. -/
structure PyDate where
  year : ℕ
  month : ℕ
  day : ℕ

/-- Zero-padded decimal rendering. -/
def pad2 (n : ℕ) : String := if n < 10 then "0" ++ toString n else toString n

/-- `str(d)` for a date. -/
def PyDate.toStr (d : PyDate) : String :=
  toString d.year ++ "-" ++ pad2 d.month ++ "-" ++ pad2 d.day

/-- A locally-authored `Property` row as `sync_property_to_contentful` reads
it: Django `CharField`s are strings (blank allowed), `PositiveIntegerField`s
are naturals (`None` allowed for the optional ones), the `DateField` and the
`ImageField` are optional. -/
structure PropertyInstance where
  title : String
  slug : String
  property_type : String
  city : String
  location : String
  price : ℕ
  description : String
  carpet_area : Option ℕ
  floor_number : Option ℕ
  total_floors : Option ℕ
  possession_date : Option PyDate
  loan_approved_by : String
  image : Option String

/-- The `en-US` locale wrapper every outbound field value carries. -/
def enUS (v : Val) : Val := .obj [("en-US", v)]

/-- The required scalar part of the outbound field dict, in source order:
title, slug, propertyType, location (geocoded from `city or location`),
price, city (`city or ""`), description (rich-text encoded). -/
def baseFields (p : PropertyInstance) : List (String × Val) :=
  let location := geocode_location
    (some (if p.city = "" then p.location else p.city))
  [("title", enUS (.str p.title)),
   ("slug", enUS (.str p.slug)),
   ("propertyType", enUS (.str p.property_type)),
   ("location", enUS (.obj [("lat", .num location.lat),
                            ("lon", .num location.lon)])),
   ("price", enUS (.num p.price)),
   ("city", enUS (.str p.city)),
   ("description", enUS (build_rich_text (some p.description)))]

/-- `if property_instance.carpet_area:` — present and nonzero. -/
def carpetPart (p : PropertyInstance) : List (String × Val) :=
  match p.carpet_area with
  | some n => if n = 0 then [] else [("carpetArea", enUS (.num n))]
  | none => []

/-- `if property_instance.floor_number:`. -/
def floorPart (p : PropertyInstance) : List (String × Val) :=
  match p.floor_number with
  | some n => if n = 0 then [] else [("floorNumber", enUS (.num n))]
  | none => []

/-- `if property_instance.total_floors:`. -/
def totalFloorsPart (p : PropertyInstance) : List (String × Val) :=
  match p.total_floors with
  | some n => if n = 0 then [] else [("totalNoOfFloors", enUS (.num n))]
  | none => []

/-- `if property_instance.possession_date:` — a date object is truthy, so
presence alone decides; the value is sent as `str(date)`. -/
def possessionPart (p : PropertyInstance) : List (String × Val) :=
  match p.possession_date with
  | some d => [("pocessionByDate", enUS (.str d.toStr))]
  | none => []

/-- `if property_instance.loan_approved_by:` — the empty string is falsy. -/
def loanPart (p : PropertyInstance) : List (String × Val) :=
  if p.loan_approved_by = "" then []
  else [("loanApprovedBy", enUS (.str p.loan_approved_by))]

/-- The image link block: only when an image is set, its file exists on disk
and the upload step returned an asset id (upload failure degrades to an
entry without an image). -/
def imagePart (p : PropertyInstance) (imageFileExists : Bool)
    (uploadedAssetId : Option String) : List (String × Val) :=
  match p.image with
  | some _ =>
    if imageFileExists then
      match uploadedAssetId with
      | some aid =>
        [("image", enUS (.obj [("sys", .obj [("type", .str "Link"),
                                             ("linkType", .str "Asset"),
                                             ("id", .str aid)])]))]
      | none => []
    else []
  | none => []

/-- `if developer_id:` — `None` and the empty string are falsy. -/
def developerPart (developer_id : Option String) : List (String × Val) :=
  match developer_id with
  | some d =>
    if d = "" then []
    else [("developer", enUS (.obj [("sys", .obj [("type", .str "Link"),
                                                  ("linkType", .str "Entry"),
                                                  ("id", .str d)])]))]
  | none => []

/-- The complete outbound field dict `sync_property_to_contentful` assembles
and hands to the entry-creation call.  The source inserts into a dict whose
keys are pairwise distinct, so sequential insertion is concatenation in
source order. -/
def sync_fields (p : PropertyInstance) (developer_id : Option String)
    (imageFileExists : Bool) (uploadedAssetId : Option String) :
    List (String × Val) :=
  baseFields p ++ carpetPart p ++ floorPart p ++ totalFloorsPart p ++
    possessionPart p ++ loanPart p ++ imagePart p imageFileExists uploadedAssetId ++
    developerPart developer_id

/-- The behaviour of the management client during one sync: unconfigured
(`get_management_client` returns `None`), some step raising, or the
entry-creation/publish round trip succeeding with an entry id. -/
inductive ManagementBehavior where
  | notConfigured
  | raises
  | createReturns (entry_id : String)

/-- `sync_property_to_contentful`: `None` when unconfigured or on any
exception, else the created entry's id together with the field dict that was
sent. -/
def sync_property_to_contentful (p : PropertyInstance)
    (developer_id : Option String) (imageFileExists : Bool)
    (uploadedAssetId : Option String) (remote : ManagementBehavior) :
    Option (String × List (String × Val)) :=
  match remote with
  | .notConfigured => none
  | .raises => none
  | .createReturns eid =>
    some (eid, sync_fields p developer_id imageFileExists uploadedAssetId)

/-! ## Supporting lemmas: newline splitting and joining -/

/-- Newline join at the character level, mirroring `pyJoinLines`. -/
def joinChars : List (List Char) → List Char
  | [] => []
  | [x] => x
  | x :: xs => x ++ '\n' :: joinChars xs

theorem splitNlAux_ne_nil (l : List Char) : splitNlAux l ≠ [] := by
  induction l with
  | nil => simp [splitNlAux]
  | cons c cs ih =>
    simp only [splitNlAux]
    split
    · simp
    · cases h : splitNlAux cs with
      | nil => simp
      | cons a t => simp

theorem joinChars_splitNlAux (l : List Char) : joinChars (splitNlAux l) = l := by
  induction l with
  | nil => rfl
  | cons c cs ih =>
    simp only [splitNlAux]
    split
    · rename_i hc
      subst hc
      cases h : splitNlAux cs with
      | nil => exact absurd h (splitNlAux_ne_nil cs)
      | cons a t =>
        rw [h] at ih
        simpa [joinChars] using ih
    · cases h : splitNlAux cs with
      | nil => exact absurd h (splitNlAux_ne_nil cs)
      | cons a t =>
        rw [h] at ih
        cases t with
        | nil => simpa [joinChars] using ih
        | cons b u => simpa [joinChars] using ih

theorem strMk_append (a b : List Char) :
    (⟨a⟩ : String) ++ (⟨b⟩ : String) = ⟨a ++ b⟩ := rfl

theorem pyJoinLines_map_mk (ls : List (List Char)) :
    pyJoinLines (ls.map fun l => (⟨l⟩ : String)) = ⟨joinChars ls⟩ := by
  induction ls with
  | nil => rfl
  | cons x xs ih =>
    cases xs with
    | nil => rfl
    | cons y ys =>
      simp only [List.map, pyJoinLines, joinChars] at ih ⊢
      rw [ih]
      have h1 : ("\n" : String) = ⟨['\n']⟩ := rfl
      rw [h1, strMk_append, strMk_append]
      simp

theorem pyJoinLines_pySplitLines (s : String) :
    pyJoinLines (pySplitLines s) = s := by
  rw [pySplitLines, pyJoinLines_map_mk, joinChars_splitNlAux]

theorem mem_splitNlAux_no_nl {l piece : List Char} (h : piece ∈ splitNlAux l) :
    '\n' ∉ piece := by
  induction l generalizing piece with
  | nil =>
    simp [splitNlAux] at h
    simp [h]
  | cons c cs ih =>
    simp only [splitNlAux] at h
    split at h
    · rcases List.mem_cons.mp h with h1 | h1
      · simp [h1]
      · exact ih h1
    · rename_i hc
      cases hs : splitNlAux cs with
      | nil => exact absurd hs (splitNlAux_ne_nil cs)
      | cons a t =>
        rw [hs] at h
        rcases List.mem_cons.mp h with h1 | h1
        · subst h1
          intro hmem
          rcases List.mem_cons.mp hmem with h2 | h2
          · exact hc h2.symm
          · exact ih (hs ▸ List.mem_cons_self a t) h2
        · exact ih (hs ▸ List.mem_cons_of_mem a h1)

theorem mem_of_mem_splitNlAux {l piece : List Char} (h : piece ∈ splitNlAux l)
    {c : Char} (hc : c ∈ piece) : c ∈ l := by
  induction l generalizing piece with
  | nil =>
    simp [splitNlAux] at h
    subst h
    simp at hc
  | cons a cs ih =>
    simp only [splitNlAux] at h
    split at h
    · rcases List.mem_cons.mp h with h1 | h1
      · subst h1
        simp at hc
      · exact List.mem_cons_of_mem a (ih h1 hc)
    · cases hs : splitNlAux cs with
      | nil => exact absurd hs (splitNlAux_ne_nil cs)
      | cons x t =>
        rw [hs] at h
        rcases List.mem_cons.mp h with h1 | h1
        · subst h1
          rcases List.mem_cons.mp hc with h2 | h2
          · simp [h2]
          · exact List.mem_cons_of_mem a
              (ih (hs ▸ List.mem_cons_self x t) h2)
        · exact List.mem_cons_of_mem a
            (ih (hs ▸ List.mem_cons_of_mem x h1) hc)

theorem splitNlAux_of_no_nl {l : List Char} (h : '\n' ∉ l) :
    splitNlAux l = [l] := by
  induction l with
  | nil => rfl
  | cons c cs ih =>
    simp only [splitNlAux]
    have hc : ¬ c = '\n' := fun hh => h (hh ▸ List.mem_cons_self c cs)
    rw [if_neg hc, ih (fun hm => h (List.mem_cons_of_mem c hm))]

theorem splitNlAux_append_nl {x : List Char} (h : '\n' ∉ x) (t : List Char) :
    splitNlAux (x ++ '\n' :: t) = x :: splitNlAux t := by
  induction x with
  | nil => simp [splitNlAux]
  | cons c cs ih =>
    have hc : ¬ c = '\n' := fun hh => h (hh ▸ List.mem_cons_self c cs)
    have hrec := ih (fun hm => h (List.mem_cons_of_mem c hm))
    show splitNlAux (c :: (cs ++ '\n' :: t)) = _
    simp only [splitNlAux, if_neg hc, List.append_eq] at hrec ⊢
    rw [hrec]

theorem splitNlAux_joinChars {ls : List (List Char)} (hne : ls ≠ [])
    (h : ∀ x ∈ ls, '\n' ∉ x) : splitNlAux (joinChars ls) = ls := by
  induction ls with
  | nil => exact absurd rfl hne
  | cons x xs ih =>
    cases xs with
    | nil =>
      simp only [joinChars]
      exact splitNlAux_of_no_nl (h x (List.mem_cons_self x []))
    | cons y ys =>
      simp only [joinChars]
      rw [splitNlAux_append_nl (h x (List.mem_cons_self x (y :: ys)))]
      rw [ih (by simp) (fun z hz => h z (List.mem_cons_of_mem x hz))]

theorem two_le_splitNlAux_length {l : List Char} (h : '\n' ∈ l) :
    2 ≤ (splitNlAux l).length := by
  induction l with
  | nil => simp at h
  | cons c cs ih =>
    simp only [splitNlAux]
    split
    · have := splitNlAux_ne_nil cs
      have : 1 ≤ (splitNlAux cs).length := by
        cases hs : splitNlAux cs with
        | nil => exact absurd hs (splitNlAux_ne_nil cs)
        | cons a t => simp
      simpa using this
    · rename_i hc
      have hmem : '\n' ∈ cs := by
        rcases List.mem_cons.mp h with h1 | h1
        · exact absurd h1.symm hc
        · exact h1
      cases hs : splitNlAux cs with
      | nil => exact absurd hs (splitNlAux_ne_nil cs)
      | cons a t =>
        have := ih hmem
        rw [hs] at this
        simpa using this

/-! ## Supporting lemmas: stripping -/

theorem mem_stripChars {l : List Char} {c : Char} (h : c ∈ stripChars l) :
    c ∈ l := by
  simp only [stripChars, List.mem_reverse] at h
  have h1 := (List.dropWhile_sublist (l := (l.dropWhile isPyWS).reverse)
    (p := isPyWS)).subset h
  rw [List.mem_reverse] at h1
  exact (List.dropWhile_sublist (l := l) (p := isPyWS)).subset h1

theorem stripChars_eq_nil_of_all_ws {l : List Char}
    (h : ∀ c ∈ l, isPyWS c = true) : stripChars l = [] := by
  have h1 : l.dropWhile isPyWS = [] := List.dropWhile_eq_nil_iff.mpr h
  simp [stripChars, h1]

theorem all_ws_of_stripChars_eq_nil {l : List Char}
    (h : stripChars l = []) : ∀ c ∈ l, isPyWS c = true := by
  intro c hc
  simp only [stripChars, List.reverse_eq_nil_iff] at h
  have h2 : ∀ x ∈ (l.dropWhile isPyWS).reverse, isPyWS x = true :=
    List.dropWhile_eq_nil_iff.mp h
  have h3 : ∀ x ∈ l.dropWhile isPyWS, isPyWS x = true := by
    intro x hx
    exact h2 x (List.mem_reverse.mpr hx)
  rcases (List.mem_append.mp
    ((List.takeWhile_append_dropWhile (p := isPyWS) (l := l)) ▸ hc)) with h4 | h4
  · exact List.mem_takeWhile_imp h4
  · exact h3 c h4

theorem pyStrip_no_nl {s : String} (h : '\n' ∉ s.data) :
    '\n' ∉ (pyStrip s).data := fun hm => h (mem_stripChars hm)

/-! ## Supporting lemmas: parsing a built document -/

theorem nodeTexts_paragraphNode (v : String) :
    nodeTexts (paragraphNode v) = .ok [.str v] := rfl

theorem nodesTexts_map_para (ps : List String) :
    nodesTexts (ps.map paragraphNode) = .ok (ps.map Val.str) := by
  induction ps with
  | nil => rfl
  | cons a t ih => simp [nodesTexts, List.map, nodeTexts_paragraphNode, ih]

theorem allStrings_map_str (ps : List String) :
    allStrings (ps.map Val.str) = some ps := by
  induction ps with
  | nil => rfl
  | cons a t ih => simp [allStrings, List.map, ih]

theorem parse_rich_text_doc (c : List Val) :
    parse_rich_text (documentNode c) =
      (match nodesTexts c with
       | .error _ => pyStr (documentNode c)
       | .ok parts =>
         match allStrings parts with
         | some strs => pyJoinLines strs
         | none => pyStr (documentNode c)) := rfl

theorem parse_documentNode_map (ps : List String) :
    parse_rich_text (documentNode (ps.map paragraphNode)) = pyJoinLines ps := by
  rw [parse_rich_text_doc, nodesTexts_map_para]
  simp [allStrings_map_str]

/-! ## Supporting lemmas: the encode-side filterMap -/

theorem filterMap_para_all_clean (ls : List String)
    (h : ∀ l ∈ ls, pyStrip l = l ∧ l ≠ "") :
    (ls.filterMap fun para => if pyStrip para = "" then none
      else some (paragraphNode (pyStrip para))) = ls.map paragraphNode := by
  induction ls with
  | nil => rfl
  | cons a t ih =>
    have ha := h a (List.mem_cons_self a t)
    have h1 : ¬ pyStrip a = "" := by
      rw [ha.1]
      exact ha.2
    simp only [List.filterMap_cons, if_neg h1, ha.1, if_neg ha.2, List.map]
    rw [ih (fun l hl => h l (List.mem_cons_of_mem a hl))]

theorem filterMap_para_all_blank (ls : List String)
    (h : ∀ l ∈ ls, pyStrip l = "") :
    (ls.filterMap fun para => if pyStrip para = "" then none
      else some (paragraphNode (pyStrip para))) = [] := by
  induction ls with
  | nil => rfl
  | cons a t ih =>
    simp only [List.filterMap_cons, if_pos (h a (List.mem_cons_self a t))]
    exact ih (fun l hl => h l (List.mem_cons_of_mem a hl))

theorem filterMap_para_factor (ls : List String) :
    (ls.filterMap fun para => if pyStrip para = "" then none
      else some (paragraphNode (pyStrip para))) =
    ((ls.filterMap fun para => if pyStrip para = "" then none
      else some (pyStrip para)).map paragraphNode) := by
  induction ls with
  | nil => rfl
  | cons a t ih =>
    by_cases h : pyStrip a = "" <;> simp [List.filterMap_cons, h, ih]

theorem filterMap_strip_length_lt (ls : List String)
    (h : ∃ l ∈ ls, pyStrip l = "") :
    (ls.filterMap fun para => if pyStrip para = "" then none
      else some (pyStrip para)).length < ls.length := by
  induction ls with
  | nil => simp at h
  | cons a t ih =>
    by_cases ha : pyStrip a = ""
    · simp only [List.filterMap_cons, if_pos ha, List.length_cons]
      have hle := List.length_filterMap_le
        (fun para => if pyStrip para = "" then none else some (pyStrip para)) t
      omega
    · obtain ⟨l, hl, hsl⟩ := h
      rcases List.mem_cons.mp hl with h1 | h1
      · exact absurd (h1 ▸ hsl) ha
      · have := ih ⟨l, h1, hsl⟩
        simp only [List.filterMap_cons, if_neg ha, List.length_cons]
        omega

theorem mem_filterMap_strip {ls : List String} {x : String}
    (h : x ∈ ls.filterMap fun para => if pyStrip para = "" then none
      else some (pyStrip para)) :
    ∃ para ∈ ls, x = pyStrip para := by
  rcases List.mem_filterMap.mp h with ⟨a, ha, hax⟩
  by_cases h1 : pyStrip a = ""
  · rw [if_pos h1] at hax
    exact absurd hax (by simp)
  · rw [if_neg h1] at hax
    exact ⟨a, ha, (Option.some_inj.mp hax).symm⟩

theorem pySplitLines_pyJoinLines (xs : List String) (hne : xs ≠ [])
    (h : ∀ x ∈ xs, '\n' ∉ x.data) : pySplitLines (pyJoinLines xs) = xs := by
  have heta : ∀ t : List String,
      t.map (fun x => (⟨x.data⟩ : String)) = t := by
    intro t
    induction t with
    | nil => rfl
    | cons a u ihu => simp only [List.map, ihu]
  have hx : xs = (xs.map String.data).map (fun l => (⟨l⟩ : String)) := by
    rw [List.map_map]
    exact (heta xs).symm
  rw [hx, pyJoinLines_map_mk, pySplitLines]
  rw [splitNlAux_joinChars (by simpa using hne)
    (by intro x hmem
        rcases List.mem_map.mp hmem with ⟨y, hy, hyx⟩
        exact hyx ▸ h y hy)]

theorem pySplitLines_ne_nil (s : String) : pySplitLines s ≠ [] := by
  simp only [pySplitLines]
  intro hc
  exact splitNlAux_ne_nil s.data (List.map_eq_nil_iff.mp hc)

theorem mem_pySplitLines_no_nl {s : String} {l : String}
    (h : l ∈ pySplitLines s) : '\n' ∉ l.data := by
  rcases List.mem_map.mp h with ⟨piece, hp, hpl⟩
  intro hmem
  exact mem_splitNlAux_no_nl hp (by rw [← hpl] at hmem; exact hmem)

theorem build_some_ne (s : String) (h : s ≠ "") :
    build_rich_text (some s) =
      (if ((pySplitLines s).filterMap fun para =>
            if pyStrip para = "" then none
            else some (paragraphNode (pyStrip para))).isEmpty then
        documentNode [paragraphNode "No description"]
      else
        documentNode ((pySplitLines s).filterMap fun para =>
          if pyStrip para = "" then none
          else some (paragraphNode (pyStrip para)))) := by
  simp [build_rich_text, h]

/-- **C1** (amended).  Round-trip of the rich-text codec.  (1) For every
input text whose lines are all non-blank and carry no leading or trailing
whitespace, `parse_rich_text (build_rich_text text)` is `text` exactly.
(2) For every input text containing at least one blank line *and at least
one newline character*, the round-trip output has strictly fewer lines than
the input.  (The claim's unrestricted second part fails on single-line
whitespace-only inputs such as `""`, whose round-trip output has exactly as
many lines — one — as the input; see the counterexample.) -/
theorem richTextRoundTrip :
    (∀ text : String,
      (∀ l ∈ pySplitLines text, pyStrip l = l ∧ l ≠ "") →
      parse_rich_text (build_rich_text (some text)) = text) ∧
    (∀ text : String,
      (∃ l ∈ pySplitLines text, pyStrip l = "") →
      '\n' ∈ text.data →
      (pySplitLines (parse_rich_text (build_rich_text (some text)))).length
        < (pySplitLines text).length) := by
  constructor
  · intro text h
    have htne : text ≠ "" := by
      intro he
      subst he
      exact (h "" (by decide)).2 rfl
    have hne := pySplitLines_ne_nil text
    rw [build_some_ne text htne, filterMap_para_all_clean _ h]
    have hmapne : ¬ ((pySplitLines text).map paragraphNode).isEmpty = true := by
      cases hl : pySplitLines text with
      | nil => exact absurd hl hne
      | cons a t => simp
    rw [if_neg hmapne, parse_documentNode_map]
    exact pyJoinLines_pySplitLines text
  · intro text hbl hnl
    have htne : text ≠ "" := by
      intro he
      subst he
      simp at hnl
    rw [build_some_ne text htne, filterMap_para_factor]
    have hn2 : 2 ≤ (pySplitLines text).length := by
      simp only [pySplitLines, List.length_map]
      exact two_le_splitNlAux_length hnl
    have hlt := filterMap_strip_length_lt (pySplitLines text) hbl
    by_cases hemp : ((pySplitLines text).filterMap fun para =>
        if pyStrip para = "" then none else some (pyStrip para)) = []
    · rw [hemp]
      simp only [List.map_nil, List.isEmpty_nil, if_pos]
      have hfb : parse_rich_text (documentNode [paragraphNode "No description"])
          = "No description" := by
        simpa [pyJoinLines] using parse_documentNode_map ["No description"]
      rw [hfb]
      have hl1 : pySplitLines "No description" = ["No description"] := rfl
      rw [hl1]
      simpa using hn2
    · have hmapne : ¬ (((pySplitLines text).filterMap fun para =>
          if pyStrip para = "" then none
          else some (pyStrip para)).map paragraphNode).isEmpty = true := by
        cases hl : (pySplitLines text).filterMap fun para =>
            if pyStrip para = "" then none else some (pyStrip para) with
        | nil => exact absurd hl hemp
        | cons a t => simp
      rw [if_neg hmapne, parse_documentNode_map]
      rw [pySplitLines_pyJoinLines _ hemp ?_]
      · exact hlt
      · intro x hx
        rcases mem_filterMap_strip hx with ⟨para, hp, hxe⟩
        subst hxe
        exact pyStrip_no_nl (mem_pySplitLines_no_nl hp)

/-- Witness for `richTextRoundTrip`: the exact round-trip at
`"hello\nworld"` and the strict line decrease at `"a\n\nb"`. -/
theorem richTextRoundTrip_witness :
    parse_rich_text (build_rich_text (some "hello\nworld")) = "hello\nworld" ∧
    (pySplitLines (parse_rich_text (build_rich_text (some "a\n\nb")))).length
      < (pySplitLines "a\n\nb").length :=
  ⟨richTextRoundTrip.1 "hello\nworld" (by decide),
   richTextRoundTrip.2 "a\n\nb" (by decide) (by decide)⟩

/-- Counterexample to C1 as stated: the empty text consists of a single
blank line, yet its round-trip output (`"No description provided."`) also
has one line, not strictly fewer. -/
theorem richTextRoundTrip_counterexample :
    (∃ l ∈ pySplitLines "", pyStrip l = "") ∧
    ¬ (pySplitLines (parse_rich_text (build_rich_text (some "")))).length
        < (pySplitLines "").length := by
  constructor
  · exact ⟨"", by decide, rfl⟩
  · decide

theorem parse_str_pass (s : String) : parse_rich_text (.str s) = s := by
  by_cases h : s = ""
  · subst h
    rfl
  · simp [parse_rich_text, pyTruthy, h]

/-- **C10**.  `parse_rich_text` passes every non-empty string input through
unchanged, and — its output being a string in every branch — it is
idempotent: re-parsing its own output changes nothing, for every input
value. -/
theorem parseRichTextIdempotent :
    (∀ s : String, s ≠ "" → parse_rich_text (.str s) = s) ∧
    (∀ x : Val,
      parse_rich_text (.str (parse_rich_text x)) = parse_rich_text x) :=
  ⟨fun s _ => parse_str_pass s, fun x => parse_str_pass (parse_rich_text x)⟩

/-- Witness for `parseRichTextIdempotent`: the pass-through at `"hello"` and
idempotence at a non-string input. -/
theorem parseRichTextIdempotent_witness :
    parse_rich_text (.str "hello") = "hello" ∧
    parse_rich_text (.str (parse_rich_text (.num 5)))
      = parse_rich_text (.num 5) :=
  ⟨parseRichTextIdempotent.1 "hello" (by decide),
   parseRichTextIdempotent.2 (.num 5)⟩

/-- **C7**.  For every empty or whitespace-only input (`None`, `""`, or a
string whose strip is empty), `build_rich_text` produces a document with a
single placeholder paragraph; its text is the literal
`"No description provided."` on the falsy-input branch (`None` and `""`)
and `"No description"` on the all-blank-lines branch (whitespace-only
non-empty input). -/
theorem buildFallbackParagraph :
    ∀ t : Option String,
      (t = none ∨ ∃ s, t = some s ∧ pyStrip s = "") →
      build_rich_text t = documentNode [paragraphNode
        (if t = none ∨ t = some "" then "No description provided."
         else "No description")] := by
  intro t ht
  rcases ht with h | ⟨s, hts, hs⟩
  · subst h
    rw [if_pos (Or.inl rfl)]
    rfl
  · subst hts
    by_cases hse : s = ""
    · subst hse
      rw [if_pos (Or.inr rfl)]
      rfl
    · rw [if_neg (by simp [hse])]
      rw [build_some_ne s hse]
      have hall : ∀ l ∈ pySplitLines s, pyStrip l = "" := by
        intro l hl
        have h0 : stripChars s.data = [] := congrArg String.data hs
        have hws := all_ws_of_stripChars_eq_nil h0
        rcases List.mem_map.mp hl with ⟨piece, hp, hpl⟩
        have hpw : ∀ c ∈ piece, isPyWS c = true :=
          fun c hc => hws c (mem_of_mem_splitNlAux hp hc)
        have hnil : stripChars piece = [] := stripChars_eq_nil_of_all_ws hpw
        rw [← hpl]
        show pyStrip ⟨piece⟩ = ""
        simp [pyStrip, hnil]
      rw [filterMap_para_all_blank _ hall]
      rfl

/-- Witness for `buildFallbackParagraph`: the two branches at `None` and at
the whitespace-only text of a space, a newline and a space. -/
theorem buildFallbackParagraph_witness :
    build_rich_text none
      = documentNode [paragraphNode "No description provided."] ∧
    build_rich_text (some " \n ")
      = documentNode [paragraphNode "No description"] := by
  constructor
  · have h := buildFallbackParagraph none (Or.inl rfl)
    rwa [if_pos (Or.inl rfl)] at h
  · have h := buildFallbackParagraph (some " \n ")
      (Or.inr ⟨" \n ", rfl, by decide⟩)
    rwa [if_neg (by decide)] at h

theorem find_first {α : Type} (l : List α) (p : α → Bool) (i : ℕ)
    (hi : i < l.length) (hp : p (l.get ⟨i, hi⟩) = true)
    (hbefore : ∀ j (hj : j < l.length), j < i → p (l.get ⟨j, hj⟩) = false) :
    l.find? p = some (l.get ⟨i, hi⟩) := by
  induction l generalizing i with
  | nil => simp at hi
  | cons a t ih =>
    cases i with
    | zero =>
      simp only [List.get] at hp
      simp [List.find?_cons, hp]
    | succ n =>
      have ha : p a = false := hbefore 0 (by simp) (Nat.succ_pos n)
      simp only [List.find?_cons, ha]
      exact ih n (Nat.lt_of_succ_lt_succ hi) hp
        (fun j hj hji => hbefore (j + 1) (by simpa using Nat.succ_lt_succ hj)
          (Nat.succ_lt_succ hji))

/-- **C4**.  `geocode_location` is total by construction and: `None` and the
empty input yield the fixed default `(17.385, 78.4867)`; an input whose
lower-casing contains no city of the table also yields the default; and an
input whose lower-casing contains the city at table position `i`, but none
of the cities before it, yields exactly that city's fixed coordinates —
the first match in table-iteration order wins. -/
theorem geocodeSpec :
    geocode_location none = ⟨17.385, 78.4867⟩ ∧
    geocode_location (some "") = ⟨17.385, 78.4867⟩ ∧
    (∀ s : String, s ≠ "" →
      (∀ c ∈ CITY_COORDS, strContains (lowerStr s) c.1 = false) →
      geocode_location (some s) = ⟨17.385, 78.4867⟩) ∧
    (∀ s : String, s ≠ "" → ∀ i (hi : i < CITY_COORDS.length),
      strContains (lowerStr s) (CITY_COORDS.get ⟨i, hi⟩).1 = true →
      (∀ j (hj : j < CITY_COORDS.length), j < i →
        strContains (lowerStr s) (CITY_COORDS.get ⟨j, hj⟩).1 = false) →
      geocode_location (some s) = (CITY_COORDS.get ⟨i, hi⟩).2) := by
  refine ⟨rfl, rfl, ?_, ?_⟩
  · intro s hs hnone
    simp only [geocode_location, if_neg hs]
    rw [List.find?_eq_none.mpr (fun c hc => by simp [hnone c hc])]
  · intro s hs i hi hp hb
    simp only [geocode_location, if_neg hs]
    rw [find_first CITY_COORDS (fun c => strContains (lowerStr s) c.1) i hi hp hb]

/-- Witness for `geocodeSpec`: `"Navi Mumbai"` hits the table's second city
(and not its first), `"timbuktu"` hits none. -/
theorem geocodeSpec_witness :
    geocode_location (some "Navi Mumbai") = ⟨19.076, 72.8777⟩ ∧
    geocode_location (some "timbuktu") = ⟨17.385, 78.4867⟩ := by
  constructor
  · have h := geocodeSpec.2.2.2 "Navi Mumbai" (by decide) 1 (by decide)
      (by decide)
      (by intro j hj hj1
          have hj0 : j = 0 := by omega
          subst hj0
          show strContains (lowerStr "Navi Mumbai") "hyderabad" = false
          decide)
    exact h
  · exact geocodeSpec.2.2.1 "timbuktu" (by decide) (by decide)

/-- **C9**.  `get_asset_url` resolves a protocol-relative stored URL
(beginning with `//`) to the URL prefixed with `https:`, returns any other
stored URL unchanged (through the `url()` branch and the `fields()['file']`
branch alike), and resolves a missing (`None`) asset to `None`. -/
theorem assetUrlResolution :
    get_asset_url .null = none ∧
    (∀ url : String, startsWithSlashSlash url = true →
      get_asset_url (.asset url) = some ("https:" ++ url) ∧
      get_asset_url (.assetFields [("file", .obj [("url", .str url)])])
        = some ("https:" ++ url)) ∧
    (∀ url : String, startsWithSlashSlash url = false →
      get_asset_url (.asset url) = some url ∧
      get_asset_url (.assetFields [("file", .obj [("url", .str url)])])
        = some url) := by
  refine ⟨rfl, ?_, ?_⟩ <;>
    intro url h <;>
    constructor <;>
    simp [get_asset_url, httpsResolve, h, pyTruthy, dictGet]

/-- Witness for `assetUrlResolution`: the spec's protocol-relative example
and an absolute URL returned unchanged. -/
theorem assetUrlResolution_witness :
    get_asset_url (.asset "//images.example.com/x.jpg")
      = some "https://images.example.com/x.jpg" ∧
    get_asset_url (.asset "https://cdn.example.com/x.jpg")
      = some "https://cdn.example.com/x.jpg" :=
  ⟨(assetUrlResolution.2.1 "//images.example.com/x.jpg" (by decide)).1,
   (assetUrlResolution.2.2 "https://cdn.example.com/x.jpg" (by decide)).1⟩

/-- **C2**.  No content-resolver read operation raises past its boundary —
each embedded operation is a total function whose `try` body's exception is
caught at the boundary — and for every slug, every limit and each of the
three claimed client behaviours (credentials unconfigured, transport
exception on the query, zero matching results) the list operations return
the empty list and the single-entity operations return `None`. -/
theorem resolverDegradesGracefully :
    ∀ (slug : String) (limit : ℤ),
      fetch_properties .notConfigured = [] ∧
      fetch_properties .raisesOnQuery = [] ∧
      fetch_properties (.returns []) = [] ∧
      fetch_blogs .notConfigured = [] ∧
      fetch_blogs .raisesOnQuery = [] ∧
      fetch_blogs (.returns []) = [] ∧
      fetch_notifications limit .notConfigured = [] ∧
      fetch_notifications limit .raisesOnQuery = [] ∧
      fetch_notifications limit (.returns []) = [] ∧
      fetch_developers .notConfigured = [] ∧
      fetch_developers .raisesOnQuery = [] ∧
      fetch_developers (.returns []) = [] ∧
      fetch_property_by_slug slug .notConfigured = none ∧
      fetch_property_by_slug slug .raisesOnQuery = none ∧
      fetch_property_by_slug slug (.returns []) = none ∧
      fetch_blog_by_slug slug .notConfigured = none ∧
      fetch_blog_by_slug slug .raisesOnQuery = none ∧
      fetch_blog_by_slug slug (.returns []) = none := by
  intro slug limit
  exact ⟨rfl, rfl, rfl, rfl, rfl, rfl, rfl, rfl, rfl, rfl, rfl, rfl, rfl,
    rfl, rfl, rfl, rfl, rfl⟩

/-- **C5** (amended).  For every raw entry whose shape makes field
extraction raise (modelled by a malformed `sys`), `parse_property_entry`
and `parse_blog_entry` return the stub `(title Error, slug empty)` and
`parse_notification_entry` returns the one-key stub `(title Error)` — with
no `slug` key at all, which is where the claim as stated fails — and none
of the three propagates the exception. -/
theorem malformedEntryStub :
    ∀ e : RawEntry, e.sysd = none →
      parse_property_entry e
        = [("title", .str "Error"), ("slug", .str "")] ∧
      parse_blog_entry e
        = [("title", .str "Error"), ("slug", .str "")] ∧
      parse_notification_entry e = [("title", .str "Error")] := by
  intro e h
  refine ⟨?_, ?_, ?_⟩
  · unfold parse_property_entry parsePropertyBody
    cases hl : latlonOf (e.getattr "location" .null) with
    | error u => simp [hl]
    | ok pr =>
      cases pr with
      | mk lat lon => simp [hl, RawEntry.sysGet, h]
  · unfold parse_blog_entry parseBlogBody
    simp [RawEntry.sysGet, h]
  · unfold parse_notification_entry parseNotificationBody
    simp [RawEntry.sysGet, h]

/-- Witness for `malformedEntryStub` at a concrete malformed entry. -/
theorem malformedEntryStub_witness :
    parse_property_entry ⟨none, [("title", Val.str "X")]⟩
      = [("title", .str "Error"), ("slug", .str "")] ∧
    parse_blog_entry ⟨none, [("title", Val.str "X")]⟩
      = [("title", .str "Error"), ("slug", .str "")] ∧
    parse_notification_entry ⟨none, [("title", Val.str "X")]⟩
      = [("title", .str "Error")] :=
  malformedEntryStub ⟨none, [("title", Val.str "X")]⟩ rfl

/-- Counterexample to C5 as stated: on a malformed entry the notification
parser's stub has no `slug` key, so it is not the claimed two-key stub. -/
theorem malformedEntryStub_counterexample :
    parse_notification_entry ⟨none, []⟩ = [("title", Val.str "Error")] ∧
    dictGet (parse_notification_entry ⟨none, []⟩) "slug" = none ∧
    parse_notification_entry ⟨none, []⟩
      ≠ [("title", Val.str "Error"), ("slug", Val.str "")] := by
  refine ⟨rfl, rfl, ?_⟩
  intro hcontra
  exact absurd (congrArg List.length hcontra) (by decide)

/-! ## Supporting lemmas: keys of the outbound field dict -/

theorem baseFields_keys (p : PropertyInstance) :
    (baseFields p).map Prod.fst =
      ["title", "slug", "propertyType", "location", "price", "city",
       "description"] := rfl

theorem carpetPart_keys (p : PropertyInstance) :
    ∀ x ∈ (carpetPart p).map Prod.fst, x = "carpetArea" := by
  rcases h : p.carpet_area with _ | n
  · simp [carpetPart, h]
  · by_cases hn : n = 0 <;> simp [carpetPart, h, hn]

theorem mem_carpetPart (p : PropertyInstance) :
    "carpetArea" ∈ (carpetPart p).map Prod.fst ↔
      ∃ n, p.carpet_area = some n ∧ n ≠ 0 := by
  rcases h : p.carpet_area with _ | n
  · simp [carpetPart, h]
  · by_cases hn : n = 0 <;> simp [carpetPart, h, hn]

theorem floorPart_keys (p : PropertyInstance) :
    ∀ x ∈ (floorPart p).map Prod.fst, x = "floorNumber" := by
  rcases h : p.floor_number with _ | n
  · simp [floorPart, h]
  · by_cases hn : n = 0 <;> simp [floorPart, h, hn]

theorem mem_floorPart (p : PropertyInstance) :
    "floorNumber" ∈ (floorPart p).map Prod.fst ↔
      ∃ n, p.floor_number = some n ∧ n ≠ 0 := by
  rcases h : p.floor_number with _ | n
  · simp [floorPart, h]
  · by_cases hn : n = 0 <;> simp [floorPart, h, hn]

theorem totalFloorsPart_keys (p : PropertyInstance) :
    ∀ x ∈ (totalFloorsPart p).map Prod.fst, x = "totalNoOfFloors" := by
  rcases h : p.total_floors with _ | n
  · simp [totalFloorsPart, h]
  · by_cases hn : n = 0 <;> simp [totalFloorsPart, h, hn]

theorem mem_totalFloorsPart (p : PropertyInstance) :
    "totalNoOfFloors" ∈ (totalFloorsPart p).map Prod.fst ↔
      ∃ n, p.total_floors = some n ∧ n ≠ 0 := by
  rcases h : p.total_floors with _ | n
  · simp [totalFloorsPart, h]
  · by_cases hn : n = 0 <;> simp [totalFloorsPart, h, hn]

theorem possessionPart_keys (p : PropertyInstance) :
    ∀ x ∈ (possessionPart p).map Prod.fst, x = "pocessionByDate" := by
  rcases h : p.possession_date with _ | d <;> simp [possessionPart, h]

theorem mem_possessionPart (p : PropertyInstance) :
    "pocessionByDate" ∈ (possessionPart p).map Prod.fst ↔
      p.possession_date.isSome := by
  rcases h : p.possession_date with _ | d <;> simp [possessionPart, h]

theorem loanPart_keys (p : PropertyInstance) :
    ∀ x ∈ (loanPart p).map Prod.fst, x = "loanApprovedBy" := by
  by_cases h : p.loan_approved_by = "" <;> simp [loanPart, h]

theorem mem_loanPart (p : PropertyInstance) :
    "loanApprovedBy" ∈ (loanPart p).map Prod.fst ↔
      p.loan_approved_by ≠ "" := by
  by_cases h : p.loan_approved_by = "" <;> simp [loanPart, h]

theorem imagePart_keys (p : PropertyInstance) (img : Bool)
    (up : Option String) :
    ∀ x ∈ (imagePart p img up).map Prod.fst, x = "image" := by
  rcases h : p.image with _ | path
  · simp [imagePart, h]
  · cases img <;> rcases hu : up with _ | aid <;> simp [imagePart, h, hu]

theorem developerPart_keys (dev : Option String) :
    ∀ x ∈ (developerPart dev).map Prod.fst, x = "developer" := by
  rcases h : dev with _ | d
  · simp [developerPart]
  · by_cases hd : d = "" <;> simp [developerPart, hd]

theorem imagePart_of_none (p : PropertyInstance) (img : Bool)
    (up : Option String) (h : p.image = none) : imagePart p img up = [] := by
  simp [imagePart, h]

theorem developerPart_none : developerPart none = [] := rfl

theorem mem_sync_fields (p : PropertyInstance) (dev : Option String)
    (img : Bool) (up : Option String) (k : String) :
    k ∈ (sync_fields p dev img up).map Prod.fst ↔
      (k ∈ (baseFields p).map Prod.fst ∨
       k ∈ (carpetPart p).map Prod.fst ∨
       k ∈ (floorPart p).map Prod.fst ∨
       k ∈ (totalFloorsPart p).map Prod.fst ∨
       k ∈ (possessionPart p).map Prod.fst ∨
       k ∈ (loanPart p).map Prod.fst ∨
       k ∈ (imagePart p img up).map Prod.fst ∨
       k ∈ (developerPart dev).map Prod.fst) := by
  simp [sync_fields, List.map_append, List.mem_append]

/-- The concrete listing of the counterexample to C3 as stated: it carries
no image and no developer reference, but a non-zero carpet area. -/
def cexListing : PropertyInstance :=
  ⟨"Sunrise Towers", "sunrise-towers", "towers", "Hyderabad", "", 5000000,
   "Nice flat", some 1200, none, none, none, "", none⟩

/-- Counterexample to C3 as stated: a listing with no image and no
developer reference but a truthy optional field produces a field set that
also contains `carpetArea`, hence does not consist *exactly* of the
required scalar fields plus description and location (the `image` and
`developer` keys are still absent). -/
theorem publishFieldSet_counterexample :
    cexListing.image = none ∧
    "carpetArea" ∈ (sync_fields cexListing none false none).map Prod.fst ∧
    "carpetArea" ∉ ["title", "slug", "propertyType", "location", "price",
      "city", "description"] ∧
    (sync_fields cexListing none false none).map Prod.fst
      ≠ ["title", "slug", "propertyType", "location", "price", "city",
         "description"] := by
  refine ⟨rfl, by decide, by decide, by decide⟩

/-- **C3** (amended).  For every listing with no image, no supplied
developer reference *and falsy optional fields* (absent-or-zero numeric
fields, absent date, empty loan tag), `sync_property_to_contentful`
assembles exactly the required scalar fields (title, slug, propertyType,
price, city) plus the encoded description and the geocoded location, with
the keys `image` and `developer` entirely absent.  (As stated — without the
falsy-optionals condition — the claim fails: a truthy optional such as a
non-zero carpet area adds its key to the field set; see the
counterexample.) -/
theorem publishFieldSetMinimal :
    ∀ (p : PropertyInstance) (img : Bool) (up : Option String),
      p.image = none →
      (p.carpet_area = none ∨ p.carpet_area = some 0) →
      (p.floor_number = none ∨ p.floor_number = some 0) →
      (p.total_floors = none ∨ p.total_floors = some 0) →
      p.possession_date = none →
      p.loan_approved_by = "" →
      (sync_fields p none img up).map Prod.fst =
        ["title", "slug", "propertyType", "location", "price", "city",
         "description"] ∧
      "image" ∉ (sync_fields p none img up).map Prod.fst ∧
      "developer" ∉ (sync_fields p none img up).map Prod.fst := by
  intro p img up himg hca hfn htf hpd hla
  have h1 : carpetPart p = [] := by
    rcases hca with h | h <;> simp [carpetPart, h]
  have h2 : floorPart p = [] := by
    rcases hfn with h | h <;> simp [floorPart, h]
  have h3 : totalFloorsPart p = [] := by
    rcases htf with h | h <;> simp [totalFloorsPart, h]
  have h4 : possessionPart p = [] := by simp [possessionPart, hpd]
  have h5 : loanPart p = [] := by simp [loanPart, hla]
  have h6 : imagePart p img up = [] := imagePart_of_none p img up himg
  have hkeys : (sync_fields p none img up).map Prod.fst =
      ["title", "slug", "propertyType", "location", "price", "city",
       "description"] := by
    simp only [sync_fields, h1, h2, h3, h4, h5, h6, developerPart_none,
      List.append_nil]
    exact baseFields_keys p
  refine ⟨hkeys, ?_, ?_⟩ <;> rw [hkeys] <;> decide

/-- Witness for `publishFieldSetMinimal` at a fully minimal listing. -/
theorem publishFieldSetMinimal_witness :
    (sync_fields ⟨"Flat", "flat", "towers", "Pune", "", 42, "", none, none,
      none, none, "", none⟩ none false none).map Prod.fst =
      ["title", "slug", "propertyType", "location", "price", "city",
       "description"] ∧
    "image" ∉ (sync_fields ⟨"Flat", "flat", "towers", "Pune", "", 42, "",
      none, none, none, none, "", none⟩ none false none).map Prod.fst ∧
    "developer" ∉ (sync_fields ⟨"Flat", "flat", "towers", "Pune", "", 42,
      "", none, none, none, none, "", none⟩ none false none).map Prod.fst :=
  publishFieldSetMinimal ⟨"Flat", "flat", "towers", "Pune", "", 42, "",
    none, none, none, none, "", none⟩ false none rfl (Or.inl rfl)
    (Or.inl rfl) (Or.inl rfl) rfl rfl

/-- **C6**.  In the outbound field set of `sync_property_to_contentful`,
each optional field's key appears iff its value is Python-truthy: the three
numeric keys require a present non-zero value (exactly zero is treated as
absent), the date key requires a present date (dates are always truthy),
and the loan key requires a non-empty string. -/
theorem optionalFieldTruthiness :
    ∀ (p : PropertyInstance) (dev : Option String) (img : Bool)
      (up : Option String),
      ("carpetArea" ∈ (sync_fields p dev img up).map Prod.fst ↔
        ∃ n, p.carpet_area = some n ∧ n ≠ 0) ∧
      ("floorNumber" ∈ (sync_fields p dev img up).map Prod.fst ↔
        ∃ n, p.floor_number = some n ∧ n ≠ 0) ∧
      ("totalNoOfFloors" ∈ (sync_fields p dev img up).map Prod.fst ↔
        ∃ n, p.total_floors = some n ∧ n ≠ 0) ∧
      ("pocessionByDate" ∈ (sync_fields p dev img up).map Prod.fst ↔
        p.possession_date.isSome) ∧
      ("loanApprovedBy" ∈ (sync_fields p dev img up).map Prod.fst ↔
        p.loan_approved_by ≠ "") := by
  intro p dev img up
  refine ⟨?_, ?_, ?_, ?_, ?_⟩ <;> rw [mem_sync_fields] <;> constructor
  · rintro (h | h | h | h | h | h | h | h)
    · rw [baseFields_keys] at h
      simp at h
    · exact (mem_carpetPart p).mp h
    · exact absurd (floorPart_keys p _ h) (by decide)
    · exact absurd (totalFloorsPart_keys p _ h) (by decide)
    · exact absurd (possessionPart_keys p _ h) (by decide)
    · exact absurd (loanPart_keys p _ h) (by decide)
    · exact absurd (imagePart_keys p img up _ h) (by decide)
    · exact absurd (developerPart_keys dev _ h) (by decide)
  · intro h
    exact Or.inr (Or.inl ((mem_carpetPart p).mpr h))
  · rintro (h | h | h | h | h | h | h | h)
    · rw [baseFields_keys] at h
      simp at h
    · exact absurd (carpetPart_keys p _ h) (by decide)
    · exact (mem_floorPart p).mp h
    · exact absurd (totalFloorsPart_keys p _ h) (by decide)
    · exact absurd (possessionPart_keys p _ h) (by decide)
    · exact absurd (loanPart_keys p _ h) (by decide)
    · exact absurd (imagePart_keys p img up _ h) (by decide)
    · exact absurd (developerPart_keys dev _ h) (by decide)
  · intro h
    exact Or.inr (Or.inr (Or.inl ((mem_floorPart p).mpr h)))
  · rintro (h | h | h | h | h | h | h | h)
    · rw [baseFields_keys] at h
      simp at h
    · exact absurd (carpetPart_keys p _ h) (by decide)
    · exact absurd (floorPart_keys p _ h) (by decide)
    · exact (mem_totalFloorsPart p).mp h
    · exact absurd (possessionPart_keys p _ h) (by decide)
    · exact absurd (loanPart_keys p _ h) (by decide)
    · exact absurd (imagePart_keys p img up _ h) (by decide)
    · exact absurd (developerPart_keys dev _ h) (by decide)
  · intro h
    exact Or.inr (Or.inr (Or.inr (Or.inl ((mem_totalFloorsPart p).mpr h))))
  · rintro (h | h | h | h | h | h | h | h)
    · rw [baseFields_keys] at h
      simp at h
    · exact absurd (carpetPart_keys p _ h) (by decide)
    · exact absurd (floorPart_keys p _ h) (by decide)
    · exact absurd (totalFloorsPart_keys p _ h) (by decide)
    · exact (mem_possessionPart p).mp h
    · exact absurd (loanPart_keys p _ h) (by decide)
    · exact absurd (imagePart_keys p img up _ h) (by decide)
    · exact absurd (developerPart_keys dev _ h) (by decide)
  · intro h
    exact Or.inr (Or.inr (Or.inr (Or.inr (Or.inl
      ((mem_possessionPart p).mpr h)))))
  · rintro (h | h | h | h | h | h | h | h)
    · rw [baseFields_keys] at h
      simp at h
    · exact absurd (carpetPart_keys p _ h) (by decide)
    · exact absurd (floorPart_keys p _ h) (by decide)
    · exact absurd (totalFloorsPart_keys p _ h) (by decide)
    · exact absurd (possessionPart_keys p _ h) (by decide)
    · exact (mem_loanPart p).mp h
    · exact absurd (imagePart_keys p img up _ h) (by decide)
    · exact absurd (developerPart_keys dev _ h) (by decide)
  · intro h
    exact Or.inr (Or.inr (Or.inr (Or.inr (Or.inr (Or.inl
      ((mem_loanPart p).mpr h))))))

/-! ## Supporting lemmas: parsing entries with missing optional fields -/

theorem getattr_default (e : RawEntry) (n : String) (dflt : Val)
    (h : e.hasattr n = false) : e.getattr n dflt = dflt := by
  unfold RawEntry.hasattr at h
  unfold RawEntry.getattr
  cases hl : attrLookup e.attrs n with
  | none => rfl
  | some v =>
    rw [hl] at h
    simp at h

theorem imageUrlOf_missing (e : RawEntry) (a : String)
    (h : e.hasattr a = false) : imageUrlOf e a = none := by
  simp [imageUrlOf, h]

theorem developerOf_missing (e : RawEntry)
    (h : e.hasattr "developer" = false) : developerOf e = .null := by
  simp [developerOf, h]

theorem latlonOf_ok (v : Val)
    (h : ∀ sd ea, v = .entryRef sd ea →
      (attrLookup ea "lat").isSome → (attrLookup ea "lon").isSome) :
    ∃ lat lon, latlonOf v = .ok (lat, lon) := by
  cases v with
  | entryRef sd ea =>
    cases hlat : attrLookup ea "lat" with
    | none =>
      exact ⟨.num 17.385, .num 78.4867, by simp [latlonOf, pyTruthy, hlat]⟩
    | some lv =>
      cases hlon : attrLookup ea "lon" with
      | none =>
        have hc := h sd ea rfl (by simp [hlat])
        rw [hlon] at hc
        simp at hc
      | some lo => exact ⟨lv, lo, by simp [latlonOf, pyTruthy, hlat, hlon]⟩
  | obj kvs =>
    by_cases hk : pyTruthy (.obj kvs)
    · exact ⟨(dictGet kvs "lat").getD (.num 17.385),
        (dictGet kvs "lon").getD (.num 78.4867), by simp [latlonOf, hk]⟩
    · exact ⟨.num 17.385, .num 78.4867, by simp [latlonOf, hk]⟩
  | null => exact ⟨.num 17.385, .num 78.4867, by simp [latlonOf, pyTruthy]⟩
  | str s =>
    exact ⟨.num 17.385, .num 78.4867, by by_cases hk : pyTruthy (.str s) <;>
      simp [latlonOf, hk]⟩
  | num q =>
    exact ⟨.num 17.385, .num 78.4867, by by_cases hk : pyTruthy (.num q) <;>
      simp [latlonOf, hk]⟩
  | bool b =>
    exact ⟨.num 17.385, .num 78.4867, by by_cases hk : pyTruthy (.bool b) <;>
      simp [latlonOf, hk]⟩
  | list xs =>
    exact ⟨.num 17.385, .num 78.4867, by by_cases hk : pyTruthy (.list xs) <;>
      simp [latlonOf, hk]⟩
  | asset u =>
    exact ⟨.num 17.385, .num 78.4867, by simp [latlonOf, pyTruthy]⟩
  | assetFields akvs =>
    exact ⟨.num 17.385, .num 78.4867, by simp [latlonOf, pyTruthy]⟩

theorem parse_property_entry_ok (e : RawEntry) (d : List (String × String))
    (hsys : e.sysd = some d) (lat lon : Val)
    (hl : latlonOf (e.getattr "location" .null) = .ok (lat, lon)) :
    parse_property_entry e =
      [("id", .str (sysDictGet d "id" "")),
       ("title", e.getattr "title" (.str "")),
       ("slug", e.getattr "slug" (.str "")),
       ("property_type", e.getattr "propertyType" (.str "")),
       ("price", e.getattr "price" (.num 0)),
       ("city", e.getattr "city" (.str "")),
       ("location", .obj [("lat", lat), ("lon", lon)]),
       ("description",
        .str (parse_rich_text (e.getattr "description" (.str "")))),
       ("carpet_area", e.getattr "carpetArea" .null),
       ("floor_number", e.getattr "floorNumber" .null),
       ("total_floors", e.getattr "totalNoOfFloors" .null),
       ("possession_date", e.getattr "pocessionByDate" .null),
       ("loan_approved_by", e.getattr "loanApprovedBy" (.str "")),
       ("image_url", optStrVal (imageUrlOf e "image")),
       ("developer", developerOf e),
       ("created_at", .str (sysDictGet d "createdAt" ""))] := by
  unfold parse_property_entry parsePropertyBody
  rw [hl]
  simp [RawEntry.sysGet, hsys]

/-- **C8**.  For every raw property entry that is otherwise well formed (its
`sys` is a dict and its `location`, when it is an attribute object exposing
`lat`, also exposes `lon`), each missing optional attribute parses to its
documented default rather than raising: `null` for the numeric and date
fields, the empty string for `loan_approved_by`, `null` for `image_url`
and `developer`. -/
theorem parseDefaultsForMissing :
    ∀ (e : RawEntry) (d : List (String × String)), e.sysd = some d →
      (∀ sd ea, e.getattr "location" .null = .entryRef sd ea →
        (attrLookup ea "lat").isSome → (attrLookup ea "lon").isSome) →
      ((e.hasattr "carpetArea" = false →
          dictGet (parse_property_entry e) "carpet_area" = some .null) ∧
       (e.hasattr "floorNumber" = false →
          dictGet (parse_property_entry e) "floor_number" = some .null) ∧
       (e.hasattr "totalNoOfFloors" = false →
          dictGet (parse_property_entry e) "total_floors" = some .null) ∧
       (e.hasattr "pocessionByDate" = false →
          dictGet (parse_property_entry e) "possession_date" = some .null) ∧
       (e.hasattr "loanApprovedBy" = false →
          dictGet (parse_property_entry e) "loan_approved_by"
            = some (.str "")) ∧
       (e.hasattr "image" = false →
          dictGet (parse_property_entry e) "image_url" = some .null) ∧
       (e.hasattr "developer" = false →
          dictGet (parse_property_entry e) "developer" = some .null)) := by
  intro e d hsys hben
  obtain ⟨lat, lon, hl⟩ := latlonOf_ok _ hben
  have hpe := parse_property_entry_ok e d hsys lat lon hl
  refine ⟨?_, ?_, ?_, ?_, ?_, ?_, ?_⟩ <;> intro hmiss <;> rw [hpe]
  · show some (e.getattr "carpetArea" Val.null) = some Val.null
    rw [getattr_default e "carpetArea" Val.null hmiss]
  · show some (e.getattr "floorNumber" Val.null) = some Val.null
    rw [getattr_default e "floorNumber" Val.null hmiss]
  · show some (e.getattr "totalNoOfFloors" Val.null) = some Val.null
    rw [getattr_default e "totalNoOfFloors" Val.null hmiss]
  · show some (e.getattr "pocessionByDate" Val.null) = some Val.null
    rw [getattr_default e "pocessionByDate" Val.null hmiss]
  · show some (e.getattr "loanApprovedBy" (Val.str ""))
      = some (Val.str "")
    rw [getattr_default e "loanApprovedBy" (Val.str "") hmiss]
  · show some (optStrVal (imageUrlOf e "image")) = some Val.null
    rw [imageUrlOf_missing e "image" hmiss]
    rfl
  · show some (developerOf e) = some Val.null
    rw [developerOf_missing e hmiss]

/-- Witness for `parseDefaultsForMissing` at an entry carrying only a
title. -/
theorem parseDefaultsForMissing_witness :
    dictGet (parse_property_entry ⟨some [("id", "p1")],
      [("title", Val.str "Casa")]⟩) "carpet_area" = some Val.null ∧
    dictGet (parse_property_entry ⟨some [("id", "p1")],
      [("title", Val.str "Casa")]⟩) "floor_number" = some Val.null ∧
    dictGet (parse_property_entry ⟨some [("id", "p1")],
      [("title", Val.str "Casa")]⟩) "total_floors" = some Val.null ∧
    dictGet (parse_property_entry ⟨some [("id", "p1")],
      [("title", Val.str "Casa")]⟩) "possession_date" = some Val.null ∧
    dictGet (parse_property_entry ⟨some [("id", "p1")],
      [("title", Val.str "Casa")]⟩) "loan_approved_by"
      = some (Val.str "") ∧
    dictGet (parse_property_entry ⟨some [("id", "p1")],
      [("title", Val.str "Casa")]⟩) "image_url" = some Val.null ∧
    dictGet (parse_property_entry ⟨some [("id", "p1")],
      [("title", Val.str "Casa")]⟩) "developer" = some Val.null := by
  have h := parseDefaultsForMissing ⟨some [("id", "p1")],
    [("title", Val.str "Casa")]⟩ [("id", "p1")] rfl
    (by intro sd ea hh
        nomatch hh)
  exact ⟨h.1 rfl, h.2.1 rfl, h.2.2.1 rfl, h.2.2.2.1 rfl, h.2.2.2.2.1 rfl,
    h.2.2.2.2.2.1 rfl, h.2.2.2.2.2.2 rfl⟩
